import Mathlib

/-!
# `count` command of kustomize's `cmd/config` (count.go)

A shallow embedding of `CountRunner.out` and `CountRunner.executeCmd`
(`cmd/config/internal/commands/count.go`) and proofs about the report they
write.

Modelling conventions.

* An `io.Writer` is the text written to it so far (an append-only sink, as a
  `bytes.Buffer`); `fmt.Fprintf` appends the formatted text. The source
  discards the values `fmt.Fprintf` returns.
* A Go `error` is a value carrying the text of its `Error()` method; a nil
  error is `none`.
* Go `int` counters are natural numbers: a counter never exceeds `len(nodes)`,
  which fits in an `int`, so no wrap-around can occur.
* Go compares strings bytewise; on UTF-8 text this is the order of the code
  points, which is the order of `String` here.
* What the source takes from other packages and the Go library is carried as
  data: the result of `RNode.GetMeta` in the record, and `ext.OpenAPIFileName`,
  `kio.LocalPackageReader.Read` and the `%q` verb in `Env`.
-/

namespace Count

/-! ## Data model -/

/-- Go `error` value: `Error` is the text its `Error()` method returns. -/
structure GoError where
  Error : String
  deriving DecidableEq, Repr

/-- `yaml.ResourceMeta`, restricted to the field count.go reads. -/
structure ResourceMeta where
  Kind : String
  deriving DecidableEq, Repr

/-- `*yaml.RNode`: one parsed document. `GetMeta` is not part of count.go, so
the record carries the two values a call of it returns. -/
structure RNode where
  metaValue : ResourceMeta
  metaErr : Option GoError
  deriving DecidableEq, Repr

/-- `n.GetMeta()`: the metadata and the error of the lookup. -/
def RNode.GetMeta (n : RNode) : ResourceMeta × Option GoError :=
  (n.metaValue, n.metaErr)

/-- `CountRunner` (the cobra `Command` field plays no part in `out` and
`executeCmd`). -/
structure CountRunner where
  IncludeSubpackages : Bool
  Kind : Bool
  RecurseSubPackages : Bool
  deriving DecidableEq, Repr

/-- `io.Writer`: the text written so far. -/
abbrev Buffer := String

/-- `fmt.Fprintf(w, ...)`, given the formatted text: appends it to the sink. -/
def Fprintf (w : Buffer) (text : String) : Buffer := w ++ text

/-- `kio.Writer`: consumes the records of one scope, writes to the sink it was
built over, and returns an error or nil. -/
abbrev Writer := List RNode → Buffer → Option GoError × Buffer

/-! ## The aggregator: `CountRunner.out` -/

/-- `map[string]int`: reading a key that was never set yields `0`. -/
abbrev CountMap := String → Nat

/-- `count[key]++`. -/
def CountMap.incr (count : CountMap) (key : String) : CountMap :=
  fun k => if k = key then count k + 1 else count k

/-- `sets.String`: a set of strings, kept as the list of its distinct members. -/
abbrev StringSet := List String

/-- `k.Insert(key)`. -/
def StringSet.Insert (k : StringSet) (key : String) : StringSet :=
  if key ∈ k then k else k ++ [key]

/-- `k.List()`: the members, in an order Go leaves unspecified (here the order
of first insertion; `sortStrings` makes the order immaterial, see
`sortStrings_perm`). -/
def StringSet.List (k : StringSet) : List String := k

/-- Decision of `a ≤ b` on strings by comparing the character sequences. -/
def decideStringLE (a b : String) : Decidable (a ≤ b) :=
  decidable_of_iff (a.toList ≤ b.toList) String.le_iff_toList_le.symm

/-- `sort.Strings`: sorts in increasing order. -/
def sortStrings (l : List String) : List String :=
  @List.insertionSort String (· ≤ ·) decideStringLE l

/-- The body of the first loop of the by-kind writer (count.go 103-107):
`m, _ := n.GetMeta(); count[m.Kind]++; k.Insert(m.Kind)`. The error of the
lookup is discarded. -/
def tallyStep (st : CountMap × StringSet) (n : RNode) : CountMap × StringSet :=
  let m := n.GetMeta.1
  (st.1.incr m.Kind, st.2.Insert m.Kind)

/-- The first loop of the by-kind writer run over all the nodes, from
`count := map[string]int{}` and `k := sets.String{}`. -/
def tally (nodes : List RNode) : CountMap × StringSet :=
  nodes.foldl tallyStep (fun _ => 0, [])

/-- The text of `"%s: %d\n"` for a kind and its count. -/
def kindLine (k : String) (c : Nat) : String :=
  k ++ ": " ++ Nat.repr c ++ "\n"

/-- The text of `"%d\n"` for a count. -/
def totalLine (c : Nat) : String :=
  Nat.repr c ++ "\n"

/-- The by-kind writer (count.go 100-114). -/
def kindWriter : Writer := fun nodes w =>
  let (count, k) := tally nodes
  let order := sortStrings k.List
  let w := order.foldl (fun w k => Fprintf w (kindLine k (count k))) w
  (none, w)

/-- The total writer (count.go 116-119). -/
def totalWriter : Writer := fun nodes w =>
  (none, Fprintf w (totalLine nodes.length))

/-- `CountRunner.out` (count.go 97-122). -/
def CountRunner.out (r : CountRunner) : List Writer :=
  let out : List Writer := []
  if r.Kind then
    out ++ [kindWriter]
  else
    out ++ [totalWriter]

/-! ## The per-package command: `CountRunner.executeCmd` -/

/-- What `executeCmd` takes from outside count.go: the result of
`ext.OpenAPIFileName()`, the result of reading a package with
`kio.LocalPackageReader` (by package path and package file name), and the
rendering of a string by the `%q` verb of `fmt`. -/
structure Env where
  OpenAPIFileName : Except GoError String
  Read : String → String → Except GoError (List RNode)
  Quote : String → String

/-- The state `executeCmd` acts on: the sink `w`, and the log of the package
reads performed so far (package path, package file name). -/
structure World where
  w : Buffer
  reads : List (String × String)
  deriving DecidableEq, Repr

/-- `kio.LocalPackageReader`, with the two fields count.go sets. -/
structure LocalPackageReader where
  PackagePath : String
  PackageFileName : String
  deriving DecidableEq, Repr

/-- `LocalPackageReader.Read`: yields what the environment holds for the
package, and logs the read. -/
def LocalPackageReader.Read (env : Env) (i : LocalPackageReader) (s : World) :
    Except GoError (List RNode) × World :=
  (env.Read i.PackagePath i.PackageFileName,
   { s with reads := s.reads ++ [(i.PackagePath, i.PackageFileName)] })

/-- `kio.Pipeline`, with the two fields count.go sets. -/
structure Pipeline where
  Inputs : List LocalPackageReader
  Outputs : List Writer

/-- Modelled from the spec: the read stage of `kio.Pipeline.Execute` (package
kyaml/kio, which count.go only calls). The inputs are read in order and their
records gathered; the first failing read ends the stage with its error. -/
def readInputs (env : Env) :
    List LocalPackageReader → List RNode → World → Except GoError (List RNode) × World
  | [], result, s => (.ok result, s)
  | i :: rest, result, s =>
    match i.Read env s with
    | (.error err, s1) => (.error err, s1)
    | (.ok nodes, s1) => readInputs env rest (result ++ nodes) s1

/-- Modelled from the spec: the write stage of `kio.Pipeline.Execute` (package
kyaml/kio, which count.go only calls). The records are handed to each output
in order; the first failing output ends the stage with its error. -/
def writeOutputs : List Writer → List RNode → World → Option GoError × World
  | [], _, s => (none, s)
  | o :: rest, result, s =>
    match o result s.w with
    | (some err, w1) => (some err, { s with w := w1 })
    | (none, w1) => writeOutputs rest result { s with w := w1 }

/-- Modelled from the spec: `kio.Pipeline.Execute` (package kyaml/kio, which
count.go only calls). The spec gives the control flow per scope as
Resource Reader, then Aggregator: the reader yields the full sequence of
records of the scope or fails, the aggregator consumes the full sequence, and
a failure of the reader is the failure of the scope. -/
def Pipeline.Execute (env : Env) (p : Pipeline) (s : World) : Option GoError × World :=
  match readInputs env p.Inputs [] s with
  | (.error err, s1) => (some err, s1)
  | (.ok result, s1) => writeOutputs p.Outputs result s1

/-- `CountRunner.executeCmd` (count.go 71-95). -/
def CountRunner.executeCmd (r : CountRunner) (env : Env) (s : World) (pkgPath : String) :
    Option GoError × World :=
  match env.OpenAPIFileName with
  | .error err => (some err, s)
  | .ok openAPIFileName =>
    let input : LocalPackageReader :=
      { PackagePath := pkgPath, PackageFileName := openAPIFileName }
    let s := { s with w := Fprintf s.w (env.Quote pkgPath ++ ":\n") }
    match Pipeline.Execute env { Inputs := [input], Outputs := r.out } s with
    | (some err, s) =>
      -- return err if there is only package
      if !r.RecurseSubPackages then
        (some err, s)
      else
        -- print error message and continue
        (none, { s with w := Fprintf s.w (err.Error ++ " in package " ++ env.Quote pkgPath ++ "\n") })
    | (none, s) => (none, s)

/-! ## Notions used in the statements -/

/-- The kind a record is counted under: the `Kind` of the metadata its lookup
returns. -/
def kindOf (n : RNode) : String := n.GetMeta.1.Kind

/-- The kinds the by-kind writer prints, in the order it prints them. -/
def kindOrder (nodes : List RNode) : List String :=
  sortStrings (tally nodes).2.List

/-- The text the aggregator of `r` appends for `nodes`. -/
def report (r : CountRunner) (nodes : List RNode) : String :=
  if r.Kind then
    String.join ((kindOrder nodes).map fun k => kindLine k ((nodes.map kindOf).count k))
  else
    totalLine nodes.length

/-- The runner with the default flags: by kind, recursing into subpackages. -/
def sampleRunner : CountRunner :=
  { IncludeSubpackages := false, Kind := true, RecurseSubPackages := true }

/-- The runner counting by kind on a single package. -/
def sampleRunnerSingle : CountRunner :=
  { IncludeSubpackages := false, Kind := true, RecurseSubPackages := false }

/-- The runner printing the total, recursing into subpackages. -/
def sampleRunnerTotal : CountRunner :=
  { IncludeSubpackages := false, Kind := false, RecurseSubPackages := true }

/-- Sample records: two Deployments, one Service, and one document without a
kind whose metadata lookup fails. -/
def sampleNodes : List RNode :=
  [⟨⟨"Service"⟩, none⟩, ⟨⟨"Deployment"⟩, none⟩,
   ⟨⟨""⟩, some ⟨"missing Resource metadata"⟩⟩, ⟨⟨"Deployment"⟩, none⟩]

/-- Sample environment in which the package file name resolves and the read of
every package yields `sampleNodes`. -/
def sampleEnvOk : Env :=
  { OpenAPIFileName := .ok "Krmfile"
    Read := fun _ _ => .ok sampleNodes
    Quote := fun p => "\"" ++ p ++ "\"" }

/-- Sample environment in which the package file name resolves and the read of
every package fails. -/
def sampleEnvReadFails : Env :=
  { OpenAPIFileName := .ok "Krmfile"
    Read := fun _ _ => .error ⟨"yaml: line 2: mapping values are not allowed"⟩
    Quote := fun p => "\"" ++ p ++ "\"" }

/-- Sample environment in which the package file name does not resolve. -/
def sampleEnvNoName : Env :=
  { OpenAPIFileName := .error ⟨"no package file name"⟩
    Read := fun _ _ => .ok sampleNodes
    Quote := fun p => "\"" ++ p ++ "\"" }

/-! ## Auxiliary facts -/

theorem join_cons (a : String) (l : List String) :
    String.join (a :: l) = a ++ String.join l := by
  apply String.ext
  simp [String.data_join]

theorem join_nil : String.join [] = "" := rfl

/-- The printing loop appends the lines, in order, to the sink. -/
theorem foldl_Fprintf (line : String → String) (order : List String) (w : Buffer) :
    order.foldl (fun w k => Fprintf w (line k)) w = w ++ String.join (order.map line) := by
  induction order generalizing w with
  | nil => simp [join_nil]
  | cons k rest ih =>
    rw [List.foldl_cons, ih, List.map_cons, join_cons, Fprintf, String.append_assoc]

theorem foldl_tallyStep_count (nodes : List RNode) (st : CountMap × StringSet) (k : String) :
    (nodes.foldl tallyStep st).1 k = st.1 k + (nodes.map kindOf).count k := by
  induction nodes generalizing st with
  | nil => simp
  | cons n rest ih =>
    rw [List.foldl_cons, ih, List.map_cons, List.count_cons]
    simp only [tallyStep, CountMap.incr, kindOf, beq_iff_eq]
    by_cases h : k = n.GetMeta.1.Kind
    · simp [h]; omega
    · have h2 : ¬ n.GetMeta.1.Kind = k := fun e => h e.symm
      simp [h, h2]

theorem foldl_tallyStep_mem (nodes : List RNode) (st : CountMap × StringSet) (k : String) :
    k ∈ (nodes.foldl tallyStep st).2 ↔ k ∈ st.2 ∨ k ∈ nodes.map kindOf := by
  induction nodes generalizing st with
  | nil => simp
  | cons n rest ih =>
    rw [List.foldl_cons, ih, List.map_cons, List.mem_cons]
    simp only [tallyStep, StringSet.Insert, kindOf]
    by_cases h : n.GetMeta.1.Kind ∈ st.2
    · simp only [h, if_true]
      constructor
      · rintro (h1 | h1)
        · exact Or.inl h1
        · exact Or.inr (Or.inr h1)
      · rintro (h1 | h1 | h1)
        · exact Or.inl h1
        · exact Or.inl (h1 ▸ h)
        · exact Or.inr h1
    · simp only [h, if_false, List.mem_append, List.mem_singleton]
      tauto

theorem foldl_tallyStep_nodup (nodes : List RNode) (st : CountMap × StringSet)
    (h : st.2.Nodup) : (nodes.foldl tallyStep st).2.Nodup := by
  induction nodes generalizing st with
  | nil => simpa using h
  | cons n rest ih =>
    rw [List.foldl_cons]
    apply ih
    simp only [tallyStep, StringSet.Insert]
    by_cases h1 : n.GetMeta.1.Kind ∈ st.2
    · simpa [h1] using h
    · simp only [h1, if_false]
      rw [List.nodup_append]
      refine ⟨h, List.nodup_singleton _, ?_⟩
      intro a ha hb
      rw [List.mem_singleton] at hb
      exact h1 (hb ▸ ha)

theorem tally_count (nodes : List RNode) (k : String) :
    (tally nodes).1 k = (nodes.map kindOf).count k := by
  simp [tally, foldl_tallyStep_count]

theorem tally_mem (nodes : List RNode) (k : String) :
    k ∈ (tally nodes).2 ↔ k ∈ nodes.map kindOf := by
  simp [tally, foldl_tallyStep_mem]

theorem tally_nodup (nodes : List RNode) : (tally nodes).2.Nodup :=
  foldl_tallyStep_nodup nodes _ List.nodup_nil

theorem sortStrings_perm_self (l : List String) : (sortStrings l).Perm l :=
  @List.perm_insertionSort String (· ≤ ·) decideStringLE l

theorem sortStrings_sorted (l : List String) : (sortStrings l).Sorted (· ≤ ·) :=
  @List.sorted_insertionSort String (· ≤ ·) decideStringLE _ _ l

/-- Sorting forgets the order of its argument: whatever order `k.List()`
yields the members in, `sort.Strings` leaves the same list. -/
theorem sortStrings_perm {l l2 : List String} (h : l.Perm l2) :
    sortStrings l = sortStrings l2 :=
  List.eq_of_perm_of_sorted
    (((sortStrings_perm_self l).trans h).trans (sortStrings_perm_self l2).symm)
    (sortStrings_sorted l) (sortStrings_sorted l2)

theorem sortStrings_strict {l : List String} (h : l.Nodup) :
    (sortStrings l).Sorted (· < ·) :=
  (sortStrings_sorted l).lt_of_le ((sortStrings_perm_self l).nodup_iff.mpr h)

/-- A strictly ascending list is determined by its members. -/
theorem sorted_lt_ext {l l2 : List String} (h : l.Sorted (· < ·)) (h2 : l2.Sorted (· < ·))
    (hm : ∀ k, k ∈ l ↔ k ∈ l2) : l = l2 :=
  List.eq_of_perm_of_sorted ((List.perm_ext_iff_of_nodup h.nodup h2.nodup).mpr hm) h h2

theorem kindOrder_sorted (nodes : List RNode) : (kindOrder nodes).Sorted (· < ·) :=
  sortStrings_strict (tally_nodup nodes)

theorem kindOrder_mem (nodes : List RNode) (k : String) :
    k ∈ kindOrder nodes ↔ k ∈ nodes.map kindOf := by
  rw [kindOrder, (sortStrings_perm_self _).mem_iff]
  exact tally_mem nodes k

/-- The by-kind writer returns nil and appends one line per printed kind, with
the number of records of that kind. -/
theorem kindWriter_eq (nodes : List RNode) (w : Buffer) :
    kindWriter nodes w =
      (none, w ++ String.join ((kindOrder nodes).map
        fun k => kindLine k ((nodes.map kindOf).count k))) := by
  have h : (fun k => kindLine k ((tally nodes).1 k)) =
      fun k => kindLine k ((nodes.map kindOf).count k) := by
    funext k; rw [tally_count]
  simp only [kindWriter, kindOrder, foldl_Fprintf, h]

theorem kindOrder_perm {nodes nodes2 : List RNode} (h : nodes.Perm nodes2) :
    kindOrder nodes = kindOrder nodes2 :=
  sorted_lt_ext (kindOrder_sorted _) (kindOrder_sorted _) (fun k => by
    rw [kindOrder_mem, kindOrder_mem]
    exact (h.map kindOf).mem_iff)

theorem empty_le_string (s : String) : "" ≤ s := by
  rw [String.le_iff_toList_le]
  cases h : s.toList with
  | nil => exact le_refl _
  | cons c cs => exact le_of_lt (List.nil_lt_cons c cs)

theorem count_kindOf (nodes : List RNode) (k : String) :
    (nodes.map kindOf).count k = nodes.countP (fun n => n.GetMeta.1.Kind == k) := by
  rw [List.count, List.countP_map]
  rfl

theorem out_of_kind (r : CountRunner) (h : r.Kind = true) : r.out = [kindWriter] := by
  simp [CountRunner.out, h]

theorem out_of_total (r : CountRunner) (h : r.Kind = false) : r.out = [totalWriter] := by
  simp [CountRunner.out, h]

theorem out_eq_report (r : CountRunner) (nodes : List RNode) (w : Buffer) :
    r.out.map (fun wr => wr nodes w) = [(none, w ++ report r nodes)] := by
  cases h : r.Kind with
  | true => simp [out_of_kind r h, kindWriter_eq, report, h]
  | false => simp [out_of_total r h, totalWriter, Fprintf, report, h]

/-- The pipeline `executeCmd` builds: one package reader, the writers of
`out`. It fails exactly when the read fails, before anything is written. -/
theorem execute_eq (r : CountRunner) (env : Env) (s : World) (p name : String) :
    Pipeline.Execute env { Inputs := [⟨p, name⟩], Outputs := r.out } s =
      match env.Read p name with
      | .error err => (some err, { s with reads := s.reads ++ [(p, name)] })
      | .ok nodes =>
        (none, { w := s.w ++ report r nodes, reads := s.reads ++ [(p, name)] }) := by
  have hout : ∀ nodes (s1 : World), writeOutputs r.out nodes s1 =
      (none, { s1 with w := s1.w ++ report r nodes }) := by
    intro nodes s1
    have h := out_eq_report r nodes s1.w
    cases hk : r.Kind with
    | true =>
      rw [out_of_kind r hk] at h ⊢
      simp only [List.map_cons, List.map_nil, List.cons.injEq, and_true] at h
      simp [writeOutputs, h]
    | false =>
      rw [out_of_total r hk] at h ⊢
      simp only [List.map_cons, List.map_nil, List.cons.injEq, and_true] at h
      simp [writeOutputs, h]
  cases hr : env.Read p name with
  | error err => simp [Pipeline.Execute, readInputs, LocalPackageReader.Read, hr]
  | ok nodes => simp [Pipeline.Execute, readInputs, LocalPackageReader.Read, hr, hout]

theorem kindOrder_sum (nodes : List RNode) :
    ((kindOrder nodes).map fun k => (nodes.map kindOf).count k).sum = nodes.length := by
  have hp : (kindOrder nodes).Perm (nodes.map kindOf).dedup :=
    (List.perm_ext_iff_of_nodup (kindOrder_sorted nodes).nodup (List.nodup_dedup _)).mpr
      (fun k => by rw [kindOrder_mem, List.mem_dedup])
  rw [(hp.map _).sum_eq, List.sum_map_count_dedup_eq_length, List.length_map]

/-- When some record has the empty kind, the empty kind is printed first. -/
theorem kindOrder_empty_first (nodes : List RNode) (h : "" ∈ nodes.map kindOf) :
    ∃ tail, kindOrder nodes = "" :: tail := by
  have hs := kindOrder_sorted nodes
  have hm := (kindOrder_mem nodes "").mpr h
  cases hl : kindOrder nodes with
  | nil => rw [hl] at hm; exact absurd hm (List.not_mem_nil _)
  | cons a tail =>
    rw [hl] at hm hs
    rcases List.mem_cons.mp hm with h1 | h1
    · exact ⟨tail, by rw [h1]⟩
    · exact absurd (List.rel_of_sorted_cons hs "" h1) (not_lt.mpr (empty_le_string a))

/-- The report depends on the records only through the kinds they are counted
under. -/
theorem report_congr (r : CountRunner) {nodes nodes2 : List RNode}
    (h : nodes.map kindOf = nodes2.map kindOf) : report r nodes = report r nodes2 := by
  have hk : kindOrder nodes = kindOrder nodes2 :=
    sorted_lt_ext (kindOrder_sorted _) (kindOrder_sorted _) (fun k => by
      rw [kindOrder_mem, kindOrder_mem, h])
  have hl : nodes.length = nodes2.length := by
    have := congrArg List.length h
    simpa using this
  simp only [report, hk, h, hl]

/-- With the package file name resolved, `executeCmd` writes the header and
runs the pipeline: one failing read, or the report. -/
theorem executeCmd_eq (r : CountRunner) (env : Env) (s : World) (p name : String)
    (hName : env.OpenAPIFileName = .ok name) :
    r.executeCmd env s p =
      match env.Read p name with
      | .error err =>
        if r.RecurseSubPackages then
          (none, { w := s.w ++ (env.Quote p ++ ":\n") ++
                     (err.Error ++ " in package " ++ env.Quote p ++ "\n"),
                   reads := s.reads ++ [(p, name)] })
        else
          (some err, { w := s.w ++ (env.Quote p ++ ":\n"), reads := s.reads ++ [(p, name)] })
      | .ok nodes =>
        (none, { w := s.w ++ (env.Quote p ++ ":\n") ++ report r nodes,
                 reads := s.reads ++ [(p, name)] }) := by
  simp only [CountRunner.executeCmd, hName, execute_eq]
  cases hr : env.Read p name with
  | error err => cases hR : r.RecurseSubPackages <;> simp [Fprintf]
  | ok nodes => simp [Fprintf]

/-- The pipeline of `executeCmd` fails with `e` exactly when the read does. -/
theorem execute_fails_iff (r : CountRunner) (env : Env) (s : World) (p name : String)
    (e : GoError) :
    (Pipeline.Execute env { Inputs := [⟨p, name⟩], Outputs := r.out } s).1 = some e ↔
      env.Read p name = .error e := by
  rw [execute_eq]
  cases hr : env.Read p name with
  | error err => simp
  | ok nodes => simp

/-! ## The aggregator -/

/-- C1: when `Kind` is true, the writer returned by `out` returns nil and
appends exactly one line `<kind>: <count>` per distinct kind occurring among
the records, `<count>` being the number of records of that kind, the lines in
strictly ascending order of kind (so the empty kind, when it occurs, comes
first), and nothing else; for the empty sequence it appends nothing. -/
theorem out_kind_report (r : CountRunner) (hKind : r.Kind = true)
    (nodes : List RNode) (w : Buffer) :
    (∃ kinds : List String,
      kinds.Sorted (· < ·) ∧
      (∀ k, k ∈ kinds ↔ ∃ n ∈ nodes, n.GetMeta.1.Kind = k) ∧
      ("" ∈ kinds → kinds.head? = some "") ∧
      r.out.map (fun wr => wr nodes w) =
        [(none, w ++ String.join (kinds.map fun k =>
          k ++ ": " ++ Nat.repr (nodes.countP fun n => n.GetMeta.1.Kind == k) ++ "\n"))]) ∧
    r.out.map (fun wr => wr [] w) = [(none, w)] := by
  constructor
  · refine ⟨kindOrder nodes, kindOrder_sorted nodes, ?_, ?_, ?_⟩
    · intro k
      rw [kindOrder_mem, List.mem_map]
      rfl
    · intro h
      obtain ⟨tail, ht⟩ := kindOrder_empty_first nodes ((kindOrder_mem nodes "").mp h)
      rw [ht]
      rfl
    · rw [out_eq_report, report, if_pos hKind]
      simp only [kindLine, count_kindOf]
  · rw [out_eq_report, report, if_pos hKind]
    simp [kindOrder, tally, sortStrings, StringSet.List, join_nil]

/-- C2: when `Kind` is false, the writer returned by `out` returns nil and
appends exactly the decimal length of the sequence and a newline; for the
empty sequence that is `0` and a newline. -/
theorem out_total_report (r : CountRunner) (hKind : r.Kind = false)
    (nodes : List RNode) (w : Buffer) :
    r.out.map (fun wr => wr nodes w) = [(none, w ++ (Nat.repr nodes.length ++ "\n"))] ∧
    r.out.map (fun wr => wr [] w) = [(none, w ++ "0\n")] := by
  constructor
  · rw [out_eq_report, report, hKind]
    rfl
  · rw [out_eq_report, report, hKind]
    rfl

/-- C7: when `Kind` is true, the writer returned by `out` appends the same
text for two sequences of records that are permutations of each other, and
that text does not depend on the sink it is appended to, so a second run on
the same sequence appends the same text again. -/
theorem out_kind_perm (r : CountRunner) (hKind : r.Kind = true)
    (nodes nodes2 : List RNode) (hPerm : nodes.Perm nodes2) :
    ∃ text : String, ∀ w : Buffer,
      r.out.map (fun wr => wr nodes w) = [(none, w ++ text)] ∧
      r.out.map (fun wr => wr nodes2 w) = [(none, w ++ text)] := by
  refine ⟨report r nodes, fun w => ⟨out_eq_report r nodes w, ?_⟩⟩
  rw [out_eq_report, report, report, if_pos hKind, if_pos hKind, kindOrder_perm hPerm]
  have h : (fun k => kindLine k ((nodes.map kindOf).count k)) =
      fun k => kindLine k ((nodes2.map kindOf).count k) := by
    funext k
    rw [(hPerm.map kindOf).count_eq]
  rw [h]

/-- C8: the writers returned by `out` return nil for every input in either
mode; the by-kind writer counts the records by the kind their metadata lookup
returns whether or not the lookup reports an error; and when some record has
no kind, the first line written is `: <count>` for the empty kind, `<count>`
being the number of records without a kind, at least 1. -/
theorem out_absent_kind (r : CountRunner) (nodes : List RNode) (w : Buffer) :
    (∀ wr ∈ r.out, (wr nodes w).1 = none) ∧
    r.out.map (fun wr => wr nodes w) =
      r.out.map (fun wr => wr (nodes.map fun n => { n with metaErr := none }) w) ∧
    (r.Kind = true → (∃ n ∈ nodes, n.GetMeta.1.Kind = "") →
      ∃ rest : String,
        1 ≤ nodes.countP (fun n => n.GetMeta.1.Kind == "") ∧
        r.out.map (fun wr => wr nodes w) =
          [(none, w ++ (": " ++ Nat.repr (nodes.countP fun n => n.GetMeta.1.Kind == "")
            ++ "\n") ++ rest)]) := by
  refine ⟨?_, ?_, ?_⟩
  · intro wr hwr
    have h := out_eq_report r nodes w
    cases hk : r.Kind with
    | true =>
      rw [out_of_kind r hk] at hwr
      rw [List.mem_singleton.mp hwr, kindWriter_eq]
    | false =>
      rw [out_of_total r hk] at hwr
      rw [List.mem_singleton.mp hwr]
      rfl
  · rw [out_eq_report, out_eq_report]
    have h : nodes.map kindOf =
        (nodes.map fun n => { n with metaErr := none }).map kindOf := by
      rw [List.map_map]
      rfl
    rw [report_congr r h]
  · rintro hKind ⟨n, hn, hk⟩
    have hmem : "" ∈ nodes.map kindOf := List.mem_map.mpr ⟨n, hn, hk⟩
    obtain ⟨tail, ht⟩ := kindOrder_empty_first nodes hmem
    refine ⟨String.join (tail.map fun k => kindLine k ((nodes.map kindOf).count k)), ?_, ?_⟩
    · rw [← count_kindOf]
      exact List.count_pos_iff.mpr hmem
    · rw [out_eq_report, report, if_pos hKind, ht, List.map_cons, join_cons, kindLine,
        count_kindOf, String.empty_append]
      simp only [String.append_assoc]

/-- C10: on the same records, the by-kind writer prints rows `<kind>: <count>`
whose counts sum to the number the total writer prints, the length of the
sequence; the rows have distinct kinds, every record has its kind among them,
the count of a row is the number of records of its kind, and it is at
least 1. -/
theorem out_counts_sum (rk rt : CountRunner) (hKind : rk.Kind = true)
    (hTotal : rt.Kind = false) (nodes : List RNode) (w : Buffer) :
    ∃ rows : List (String × Nat),
      rk.out.map (fun wr => wr nodes w) =
        [(none, w ++ String.join (rows.map fun row =>
          row.1 ++ ": " ++ Nat.repr row.2 ++ "\n"))] ∧
      rt.out.map (fun wr => wr nodes w) =
        [(none, w ++ (Nat.repr (rows.map Prod.snd).sum ++ "\n"))] ∧
      (rows.map Prod.snd).sum = nodes.length ∧
      (rows.map Prod.fst).Nodup ∧
      (∀ n ∈ nodes, n.GetMeta.1.Kind ∈ rows.map Prod.fst) ∧
      (∀ row ∈ rows, row.2 = nodes.countP fun n => n.GetMeta.1.Kind == row.1) ∧
      (∀ row ∈ rows, 1 ≤ row.2) := by
  have hfst : ((kindOrder nodes).map fun k => (k, (nodes.map kindOf).count k)).map Prod.fst
      = kindOrder nodes := by
    rw [List.map_map]
    exact List.map_id _
  have hsum : (((kindOrder nodes).map fun k => (k, (nodes.map kindOf).count k)).map
      Prod.snd).sum = nodes.length := by
    rw [List.map_map]
    exact kindOrder_sum nodes
  refine ⟨(kindOrder nodes).map fun k => (k, (nodes.map kindOf).count k), ?_, ?_, hsum,
    ?_, ?_, ?_, ?_⟩
  · rw [out_eq_report, report, if_pos hKind, List.map_map]
    rfl
  · rw [out_eq_report, report, hTotal, hsum]
    rfl
  · rw [hfst]
    exact (kindOrder_sorted nodes).nodup
  · intro n hn
    rw [hfst, kindOrder_mem]
    exact List.mem_map.mpr ⟨n, hn, rfl⟩
  · intro row hrow
    obtain ⟨k, _, rfl⟩ := List.mem_map.mp hrow
    exact count_kindOf nodes k
  · intro row hrow
    obtain ⟨k, hk, rfl⟩ := List.mem_map.mp hrow
    exact List.count_pos_iff.mpr ((kindOrder_mem nodes k).mp hk)

/-! ## The per-package command -/

/-- C3: when `RecurseSubPackages` is true and the pipeline of the scope fails
with `e`, `executeCmd` returns nil and writes exactly the header line of the
path followed by the line `<message of e> in package <quoted path>`, with no
count line. -/
theorem executeCmd_recurse_failure (r : CountRunner) (env : Env) (s : World)
    (p name : String) (e : GoError)
    (hRecurse : r.RecurseSubPackages = true)
    (hName : env.OpenAPIFileName = .ok name)
    (hFail : (Pipeline.Execute env { Inputs := [⟨p, name⟩], Outputs := r.out }
      { s with w := Fprintf s.w (env.Quote p ++ ":\n") }).1 = some e) :
    (r.executeCmd env s p).1 = none ∧
    (r.executeCmd env s p).2.w =
      s.w ++ (env.Quote p ++ ":\n") ++ (e.Error ++ " in package " ++ env.Quote p ++ "\n") := by
  rw [execute_fails_iff] at hFail
  rw [executeCmd_eq r env s p name hName, hFail]
  simp [hRecurse]

/-- C4: when `RecurseSubPackages` is false and the pipeline of the scope fails
with `e`, `executeCmd` returns `e` and the header line of the path is all it
writes. -/
theorem executeCmd_single_failure (r : CountRunner) (env : Env) (s : World)
    (p name : String) (e : GoError)
    (hSingle : r.RecurseSubPackages = false)
    (hName : env.OpenAPIFileName = .ok name)
    (hFail : (Pipeline.Execute env { Inputs := [⟨p, name⟩], Outputs := r.out }
      { s with w := Fprintf s.w (env.Quote p ++ ":\n") }).1 = some e) :
    (r.executeCmd env s p).1 = some e ∧
    (r.executeCmd env s p).2.w = s.w ++ (env.Quote p ++ ":\n") := by
  rw [execute_fails_iff] at hFail
  rw [executeCmd_eq r env s p name hName, hFail]
  simp [hSingle]

/-- C5, refuted as stated: with `RecurseSubPackages` true, `executeCmd`
returns a failure when the package file name does not resolve. -/
theorem executeCmd_recurse_returns_failure :
    sampleRunner.RecurseSubPackages = true ∧
    (sampleRunner.executeCmd sampleEnvNoName { w := "", reads := [] } "pkg").1 =
      some ⟨"no package file name"⟩ :=
  ⟨rfl, rfl⟩

/-- C5, amended: `executeCmd` returns the failure `e` exactly when resolving
the package file name fails with `e`, or `RecurseSubPackages` is false and the
pipeline of the scope fails with `e`; so whenever the name resolves and
`RecurseSubPackages` is true it returns nil. -/
theorem executeCmd_failure_iff (r : CountRunner) (env : Env) (s : World) (p : String) :
    (∀ e : GoError, (r.executeCmd env s p).1 = some e ↔
      (env.OpenAPIFileName = .error e ∨
        (r.RecurseSubPackages = false ∧ ∃ name, env.OpenAPIFileName = .ok name ∧
          (Pipeline.Execute env { Inputs := [⟨p, name⟩], Outputs := r.out }
            { s with w := Fprintf s.w (env.Quote p ++ ":\n") }).1 = some e))) ∧
    (r.RecurseSubPackages = true → (∃ name, env.OpenAPIFileName = .ok name) →
      (r.executeCmd env s p).1 = none) := by
  constructor
  · intro e
    cases hN : env.OpenAPIFileName with
    | error err => simp [CountRunner.executeCmd, hN]
    | ok name =>
      rw [executeCmd_eq r env s p name hN]
      simp only [execute_fails_iff]
      cases hr : env.Read p name with
      | error err => cases hR : r.RecurseSubPackages <;> simp [hr]
      | ok nodes => simp [hr]
  · rintro hR ⟨name, hN⟩
    rw [executeCmd_eq r env s p name hN]
    cases hr : env.Read p name with
    | error err => simp [hR]
    | ok nodes => simp

/-- C6: when resolving the package file name fails with `e`, `executeCmd`
returns `e`, whatever `RecurseSubPackages` is, and leaves the sink and the log
of reads as they were: nothing is written, not even the header, and the scope
is not read. -/
theorem executeCmd_name_failure (r : CountRunner) (env : Env) (s : World) (p : String)
    (e : GoError) (hName : env.OpenAPIFileName = .error e) :
    r.executeCmd env s p = (some e, s) ∧
    (r.executeCmd env s p).2.w = s.w ∧
    (r.executeCmd env s p).2.reads = s.reads := by
  simp [CountRunner.executeCmd, hName]

/-- C9: when the package file name resolves and the read of the scope yields
`nodes`, `executeCmd` returns nil and writes exactly the header line (the
quoted path, a colon, a newline) followed by what the aggregator writes for
`nodes`: with `Kind` true the lines `<kind>: <count>` of the distinct kinds in
strictly ascending order, with `Kind` false the line of the length. -/
theorem executeCmd_success (r : CountRunner) (env : Env) (s : World) (p name : String)
    (nodes : List RNode)
    (hName : env.OpenAPIFileName = .ok name)
    (hRead : env.Read p name = .ok nodes) :
    ∃ text : String,
      (r.executeCmd env s p).1 = none ∧
      (r.executeCmd env s p).2.w = s.w ++ (env.Quote p ++ ":\n") ++ text ∧
      r.out.map (fun wr => wr nodes "") = [(none, text)] ∧
      (r.Kind = true → ∃ kinds : List String,
        kinds.Sorted (· < ·) ∧
        (∀ k, k ∈ kinds ↔ ∃ n ∈ nodes, n.GetMeta.1.Kind = k) ∧
        text = String.join (kinds.map fun k =>
          k ++ ": " ++ Nat.repr (nodes.countP fun n => n.GetMeta.1.Kind == k) ++ "\n")) ∧
      (r.Kind = false → text = Nat.repr nodes.length ++ "\n") := by
  refine ⟨report r nodes, ?_, ?_, ?_, ?_, ?_⟩
  · rw [executeCmd_eq r env s p name hName, hRead]
  · rw [executeCmd_eq r env s p name hName, hRead]
  · rw [out_eq_report, String.empty_append]
  · intro hKind
    refine ⟨kindOrder nodes, kindOrder_sorted nodes, ?_, ?_⟩
    · intro k
      rw [kindOrder_mem, List.mem_map]
      rfl
    · rw [report, if_pos hKind]
      simp only [kindLine, count_kindOf]
  · intro hKind
    rw [report, hKind]
    rfl

/-! ## Instances at the sample inputs -/

theorem out_kind_report_witness :
    sampleRunner.Kind = true ∧
    ((∃ kinds : List String,
      kinds.Sorted (· < ·) ∧
      (∀ k, k ∈ kinds ↔ ∃ n ∈ sampleNodes, n.GetMeta.1.Kind = k) ∧
      ("" ∈ kinds → kinds.head? = some "") ∧
      sampleRunner.out.map (fun wr => wr sampleNodes "") =
        [(none, "" ++ String.join (kinds.map fun k =>
          k ++ ": " ++ Nat.repr (sampleNodes.countP fun n => n.GetMeta.1.Kind == k)
            ++ "\n"))]) ∧
    sampleRunner.out.map (fun wr => wr [] "") = [(none, "")]) :=
  ⟨rfl, out_kind_report sampleRunner rfl sampleNodes ""⟩

theorem out_total_report_witness :
    sampleRunnerTotal.Kind = false ∧
    sampleRunnerTotal.out.map (fun wr => wr sampleNodes "") =
      [(none, "" ++ (Nat.repr sampleNodes.length ++ "\n"))] ∧
    sampleRunnerTotal.out.map (fun wr => wr [] "") = [(none, "" ++ "0\n")] :=
  ⟨rfl, out_total_report sampleRunnerTotal rfl sampleNodes ""⟩

theorem out_kind_perm_witness :
    sampleRunner.Kind = true ∧
    sampleNodes.Perm sampleNodes.reverse ∧
    ∃ text : String, ∀ w : Buffer,
      sampleRunner.out.map (fun wr => wr sampleNodes w) = [(none, w ++ text)] ∧
      sampleRunner.out.map (fun wr => wr sampleNodes.reverse w) = [(none, w ++ text)] :=
  ⟨rfl, (List.reverse_perm sampleNodes).symm,
    out_kind_perm sampleRunner rfl sampleNodes sampleNodes.reverse
      (List.reverse_perm sampleNodes).symm⟩

theorem out_absent_kind_witness :
    sampleRunner.Kind = true ∧
    (∃ n ∈ sampleNodes, n.GetMeta.1.Kind = "") ∧
    ∃ rest : String,
      1 ≤ sampleNodes.countP (fun n => n.GetMeta.1.Kind == "") ∧
      sampleRunner.out.map (fun wr => wr sampleNodes "") =
        [(none, "" ++ (": " ++ Nat.repr (sampleNodes.countP fun n => n.GetMeta.1.Kind == "")
          ++ "\n") ++ rest)] :=
  ⟨rfl, ⟨⟨⟨""⟩, some ⟨"missing Resource metadata"⟩⟩, by decide, rfl⟩,
    (out_absent_kind sampleRunner sampleNodes "").2.2 rfl
      ⟨⟨⟨""⟩, some ⟨"missing Resource metadata"⟩⟩, by decide, rfl⟩⟩

theorem out_counts_sum_witness :
    sampleRunner.Kind = true ∧
    sampleRunnerTotal.Kind = false ∧
    ∃ rows : List (String × Nat),
      sampleRunner.out.map (fun wr => wr sampleNodes "") =
        [(none, "" ++ String.join (rows.map fun row =>
          row.1 ++ ": " ++ Nat.repr row.2 ++ "\n"))] ∧
      sampleRunnerTotal.out.map (fun wr => wr sampleNodes "") =
        [(none, "" ++ (Nat.repr (rows.map Prod.snd).sum ++ "\n"))] ∧
      (rows.map Prod.snd).sum = sampleNodes.length ∧
      (rows.map Prod.fst).Nodup ∧
      (∀ n ∈ sampleNodes, n.GetMeta.1.Kind ∈ rows.map Prod.fst) ∧
      (∀ row ∈ rows, row.2 = sampleNodes.countP fun n => n.GetMeta.1.Kind == row.1) ∧
      (∀ row ∈ rows, 1 ≤ row.2) :=
  ⟨rfl, rfl, out_counts_sum sampleRunner sampleRunnerTotal rfl rfl sampleNodes ""⟩

theorem executeCmd_recurse_failure_witness :
    sampleRunner.RecurseSubPackages = true ∧
    sampleEnvReadFails.OpenAPIFileName = .ok "Krmfile" ∧
    (Pipeline.Execute sampleEnvReadFails
      { Inputs := [⟨"pkg", "Krmfile"⟩], Outputs := sampleRunner.out }
      { w := Fprintf "" (sampleEnvReadFails.Quote "pkg" ++ ":\n"), reads := [] }).1 =
        some ⟨"yaml: line 2: mapping values are not allowed"⟩ ∧
    (sampleRunner.executeCmd sampleEnvReadFails { w := "", reads := [] } "pkg").1 = none ∧
    (sampleRunner.executeCmd sampleEnvReadFails { w := "", reads := [] } "pkg").2.w =
      "\"pkg\":\nyaml: line 2: mapping values are not allowed in package \"pkg\"\n" :=
  ⟨rfl, rfl, rfl,
    executeCmd_recurse_failure sampleRunner sampleEnvReadFails { w := "", reads := [] }
      "pkg" "Krmfile" ⟨"yaml: line 2: mapping values are not allowed"⟩ rfl rfl rfl⟩

theorem executeCmd_single_failure_witness :
    sampleRunnerSingle.RecurseSubPackages = false ∧
    sampleEnvReadFails.OpenAPIFileName = .ok "Krmfile" ∧
    (Pipeline.Execute sampleEnvReadFails
      { Inputs := [⟨"pkg", "Krmfile"⟩], Outputs := sampleRunnerSingle.out }
      { w := Fprintf "" (sampleEnvReadFails.Quote "pkg" ++ ":\n"), reads := [] }).1 =
        some ⟨"yaml: line 2: mapping values are not allowed"⟩ ∧
    (sampleRunnerSingle.executeCmd sampleEnvReadFails { w := "", reads := [] } "pkg").1 =
      some ⟨"yaml: line 2: mapping values are not allowed"⟩ ∧
    (sampleRunnerSingle.executeCmd sampleEnvReadFails { w := "", reads := [] } "pkg").2.w =
      "\"pkg\":\n" :=
  ⟨rfl, rfl, rfl,
    executeCmd_single_failure sampleRunnerSingle sampleEnvReadFails { w := "", reads := [] }
      "pkg" "Krmfile" ⟨"yaml: line 2: mapping values are not allowed"⟩ rfl rfl rfl⟩

theorem executeCmd_failure_iff_witness :
    sampleRunner.RecurseSubPackages = true ∧
    (∃ name, sampleEnvReadFails.OpenAPIFileName = .ok name) ∧
    (sampleRunner.executeCmd sampleEnvReadFails { w := "", reads := [] } "pkg").1 = none :=
  ⟨rfl, ⟨"Krmfile", rfl⟩,
    (executeCmd_failure_iff sampleRunner sampleEnvReadFails { w := "", reads := [] } "pkg").2
      rfl ⟨"Krmfile", rfl⟩⟩

theorem executeCmd_name_failure_witness :
    sampleEnvNoName.OpenAPIFileName = .error ⟨"no package file name"⟩ ∧
    sampleRunner.executeCmd sampleEnvNoName { w := "", reads := [] } "pkg" =
      (some ⟨"no package file name"⟩, { w := "", reads := [] }) ∧
    (sampleRunner.executeCmd sampleEnvNoName { w := "", reads := [] } "pkg").2.w = "" ∧
    (sampleRunner.executeCmd sampleEnvNoName { w := "", reads := [] } "pkg").2.reads = [] :=
  ⟨rfl, executeCmd_name_failure sampleRunner sampleEnvNoName { w := "", reads := [] } "pkg"
    ⟨"no package file name"⟩ rfl⟩

theorem executeCmd_success_witness :
    sampleEnvOk.OpenAPIFileName = .ok "Krmfile" ∧
    sampleEnvOk.Read "pkg" "Krmfile" = .ok sampleNodes ∧
    ∃ text : String,
      (sampleRunner.executeCmd sampleEnvOk { w := "", reads := [] } "pkg").1 = none ∧
      (sampleRunner.executeCmd sampleEnvOk { w := "", reads := [] } "pkg").2.w =
        "" ++ (sampleEnvOk.Quote "pkg" ++ ":\n") ++ text ∧
      sampleRunner.out.map (fun wr => wr sampleNodes "") = [(none, text)] ∧
      (sampleRunner.Kind = true → ∃ kinds : List String,
        kinds.Sorted (· < ·) ∧
        (∀ k, k ∈ kinds ↔ ∃ n ∈ sampleNodes, n.GetMeta.1.Kind = k) ∧
        text = String.join (kinds.map fun k =>
          k ++ ": " ++ Nat.repr (sampleNodes.countP fun n => n.GetMeta.1.Kind == k)
            ++ "\n")) ∧
      (sampleRunner.Kind = false → text = Nat.repr sampleNodes.length ++ "\n") :=
  ⟨rfl, rfl, executeCmd_success sampleRunner sampleEnvOk { w := "", reads := [] } "pkg"
    "Krmfile" sampleNodes rfl rfl⟩

/-! ## Worked examples -/

/-- The by-kind report of the sample records. -/
theorem sample_kind_report :
    sampleRunner.out.map (fun wr => wr sampleNodes "") =
      [(none, ": 1\nDeployment: 2\nService: 1\n")] := by
  decide

/-- The total report of the sample records. -/
theorem sample_total_report :
    sampleRunnerTotal.out.map (fun wr => wr sampleNodes "") = [(none, "4\n")] := by
  decide

/-- A successful scope: the header, then the by-kind report. -/
theorem sample_executeCmd :
    sampleRunner.executeCmd sampleEnvOk { w := "", reads := [] } "a/b" =
      (none, { w := "\"a/b\":\n: 1\nDeployment: 2\nService: 1\n",
               reads := [("a/b", "Krmfile")] }) := by
  decide

end Count
